import Mathlib

/-!
Verification of the guest-side virtio vring engine in
`drivers/virtio-vring.cc`: memory-layout computation (`get_size`),
construction (`vring::vring`), buffer submission (`add_buf`), completion
reclamation (`get_buf`) and notification suppression (`need_event`).

Machine integers are modeled as `Nat` (or `Int` where the C code computes
in a signed promoted type), with explicit reductions modulo `2 ^ 16`,
`2 ^ 32` or `2 ^ 64` exactly where the C types (`u16`, `unsigned`,
`unsigned long`) truncate.  The ring memory is modeled field-structured,
with total index functions standing for the zero-initialised backing
allocation; the concrete scenarios evaluated below keep all accesses
inside the allocated sub-structures, where this agrees with the flat
allocation.
-/

namespace virtio

/-- Modelled from the spec: the descriptor-flag bit values come from the
header `drivers/virtio-vring.hh`, which is not part of the sources here;
the protocol's standard values are 1 for the chaining flag. -/
def VRING_DESC_F_NEXT : Nat := 1

/-- Modelled from the spec: device-writable descriptor flag, protocol
value 2 (header not part of the sources here). -/
def VRING_DESC_F_WRITE : Nat := 2

/-- Modelled from the spec: byte size of one descriptor, a packed
u64 physical address, u32 length, u16 flags and u16 next index
(16 bytes); the struct lives in the header, not in the sources here. -/
def sizeof_vring_desc : Nat := 16

/-- Modelled from the spec: byte size of a `u16` field. -/
def sizeof_u16 : Nat := 2

/-- Modelled from the spec: byte size of one used-ring element, a packed
u32 id and u32 length (8 bytes); the struct lives in the header. -/
def sizeof_vring_used_elem : Nat := 8

/-- One descriptor-table entry, following `vring_desc` in the source:
fields `_paddr`, `_len`, `_flags`, `_next`. -/
structure vring_desc where
  _paddr : Nat
  _len : Nat
  _flags : Nat
  _next : Nat
deriving DecidableEq

/-- The state of one vring: queue size, descriptor table, available ring
(flags, producer index, slot array) and used ring (flags, producer index,
element array).  Arrays are total functions over `Nat` indices standing
for the zero-initialised backing region. -/
structure VringState where
  _num : Nat
  _desc : Nat → vring_desc
  avail_flags : Nat
  avail_idx : Nat
  avail_ring : Nat → Nat
  used_flags : Nat
  used_idx : Nat
  used_ring : Nat → Nat × Nat

/-- The all-zero state produced by the constructor's `memset` of the
freshly allocated backing region. -/
def vring_zero (num : Nat) : VringState :=
  ⟨num, fun _ => ⟨0, 0, 0, 0⟩, 0, 0, fun _ => 0, 0, 0, fun _ => (0, 0)⟩

/-- One iteration of the constructor's loop
`for (int i=0;i<num;i++) _avail->_ring[i] = i+1;`
(the store is a u16 store). -/
def vring_init_step (s : VringState) (i : Nat) : VringState :=
  { s with avail_ring := Function.update s.avail_ring i ((i + 1) % 65536) }

/-- The constructor `vring::vring`: zero the backing region, then seed
the free-list next pointers inside the available ring's slot array.
The source performs no validation of `num` and no allocation-failure
check; construction always completes. -/
def vring_init (num : Nat) : VringState :=
  (List.range num).foldl vring_init_step (vring_zero num)

/-- `vring::get_size`: the C source computes
`((sizeof(vring_desc)*num + sizeof(u16)*(3+num) + align - 1) & ~(align-1))
 + sizeof(u16)*3 + sizeof(vring_used_elem)*num`
in 64-bit unsigned arithmetic and returns it as a 32-bit `unsigned`.
`~(align-1)` on a 64-bit unsigned is `(2^64 - align) % 2^64`, and
`+ align - 1` is the wraparound addition of `align - 1`. -/
def get_size (num align : Nat) : Nat :=
  ((((sizeof_vring_desc * num + sizeof_u16 * (3 + num) + align + (2 ^ 64 - 1)) % 2 ^ 64) &&&
      ((2 ^ 64 - align) % 2 ^ 64)) +
    sizeof_u16 * 3 + sizeof_vring_used_elem * num) % 2 ^ 32

/-- `vring::need_event`: the C source returns
`(u16)(new_idx - event_idx - 1) < (u16)(new_idx - old)` where the
subtractions happen in promoted `int` arithmetic and the u16 casts
reduce modulo `2 ^ 16`. -/
def need_event (event_idx new_idx old : Nat) : Bool :=
  decide ((((new_idx : Int) - event_idx - 1) % 65536) < (((new_idx : Int) - old) % 65536))

/-- The loop body of `vring::add_buf`, iterated `in + out` times with the
running index `i`, the current descriptor slot `d` and the running state.
Each iteration writes the descriptor's flags (the source expression
`VRING_DESC_F_NEXT | (i>in) ? VRING_DESC_F_WRITE : 0`, which by C
precedence is `(VRING_DESC_F_NEXT | (i>in)) ? VRING_DESC_F_WRITE : 0`),
the segment address and length, and `next = _avail->_ring[_avail->_idx]`;
then increments the u16 `_avail->_idx` and moves to slot
`_avail->_ring[next]`.  Returns the final descriptor slot and state. -/
def add_buf_go (sg : List (Nat × Nat)) (in_ : Nat) :
    Nat → Nat → Nat → VringState → Nat × VringState
  | 0, _, d, s => (d, s)
  | n + 1, i, d, s =>
    let seg := sg.getD i (0, 0)
    let flags := if (Nat.lor VRING_DESC_F_NEXT (if in_ < i then 1 else 0)) ≠ 0 then
        VRING_DESC_F_WRITE else 0
    let nextVal := s.avail_ring s.avail_idx
    let s1 : VringState :=
      { s with _desc := (Function.update s._desc d
          ⟨seg.1, seg.2, flags, nextVal⟩) }
    let s2 : VringState := { s1 with avail_idx := (s1.avail_idx + 1) % 65536 }
    add_buf_go sg in_ n (i + 1) (s2.avail_ring nextVal) s2

/-- `vring::add_buf`: start at slot `_avail->_ring[_avail->_idx]`, run the
loop for `in + out` segments, then clear the chaining flag of the
descriptor the loop pointer ended on (`desc->_flags &= ~VRING_DESC_F_NEXT`,
a u16 and with mask `0xFFFE`), and return `true` unconditionally (the
free-slot capacity check is commented out in the source). -/
def add_buf (s : VringState) (sg : List (Nat × Nat)) (out_ in_ : Nat) :
    VringState × Bool :=
  let d0 := s.avail_ring s.avail_idx
  let r := add_buf_go sg in_ (in_ + out_) 0 d0 s
  let dEnd := r.1
  let s1 := r.2
  let dcur := s1._desc dEnd
  let s2 : VringState :=
    { s1 with _desc := (Function.update s1._desc dEnd
        ⟨dcur._paddr, dcur._len, dcur._flags &&& 65534, dcur._next⟩) }
  (s2, true)

/-- `vring::get_buf`: the source is a stub — it returns `nullptr`, writes
nothing through its length out-parameter and leaves the state untouched. -/
def get_buf (s : VringState) : Option Nat × VringState :=
  (none, s)

/-- Spec-side observer: round `x` up to a multiple of `a`. -/
def round_up (x a : Nat) : Nat := ((x + a - 1) / a) * a

/-- Spec-side observer: byte size of the descriptor table. -/
def desc_bytes (num : Nat) : Nat := sizeof_vring_desc * num

/-- Spec-side observer: byte size of the available ring, flags + idx +
`num` ring entries + used_event, i.e. `(3 + num)` u16 fields. -/
def avail_bytes (num : Nat) : Nat := sizeof_u16 * (3 + num)

/-- Spec-side observer: byte size of the used ring, flags + idx +
avail_event (3 u16 fields) plus `num` used elements. -/
def used_bytes (num : Nat) : Nat := sizeof_u16 * 3 + sizeof_vring_used_elem * num

/-- Spec-side definition of the layout size, following the spec's words:
`round_up(desc_bytes + avail_bytes, align) + used_bytes`. -/
def get_size_spec (num align : Nat) : Nat :=
  round_up (desc_bytes num + avail_bytes num) align + used_bytes num

/-- Spec-side observer: the byte offset of the used ring inside the
layout, the rounded-up descriptor-table + available-ring prefix. -/
def used_offset (num align : Nat) : Nat :=
  round_up (desc_bytes num + avail_bytes num) align

/-- Spec-side observer: walk a descriptor chain from `head`, following
`_next` links while the chaining flag is set, with explicit fuel. -/
def walk_chain (s : VringState) : Nat → Nat → List Nat
  | 0, _ => []
  | fuel + 1, head =>
    head ::
      (if (s._desc head)._flags &&& VRING_DESC_F_NEXT ≠ 0 then
        walk_chain s fuel (s._desc head)._next
      else [])

end virtio

namespace virtio

/-- The constructor's seeding loop only writes the available ring slot
array; every other field of the state is untouched by the fold. -/
theorem foldl_step_preserves (l : List Nat) (s : VringState) :
    (l.foldl vring_init_step s)._num = s._num ∧
    (l.foldl vring_init_step s)._desc = s._desc ∧
    (l.foldl vring_init_step s).avail_flags = s.avail_flags ∧
    (l.foldl vring_init_step s).avail_idx = s.avail_idx ∧
    (l.foldl vring_init_step s).used_flags = s.used_flags ∧
    (l.foldl vring_init_step s).used_idx = s.used_idx ∧
    (l.foldl vring_init_step s).used_ring = s.used_ring := by
  induction l generalizing s with
  | nil => exact ⟨rfl, rfl, rfl, rfl, rfl, rfl, rfl⟩
  | cons a t ih => exact ih (vring_init_step s a)

/-- Value of the available-ring slot array after the constructor's
seeding loop over `List.range n`. -/
theorem foldl_range_ring (n : Nat) (s : VringState) (j : Nat) :
    ((List.range n).foldl vring_init_step s).avail_ring j =
      if j < n then (j + 1) % 65536 else s.avail_ring j := by
  induction n with
  | zero => simp
  | succ m ih =>
    rw [List.range_succ, List.foldl_append, List.foldl_cons, List.foldl_nil]
    by_cases hj : j = m
    · subst hj
      simp [vring_init_step]
    · simp only [vring_init_step]
      rw [Function.update_apply, if_neg hj, ih]
      by_cases hjm : j < m
      · rw [if_pos hjm, if_pos (by omega)]
      · rw [if_neg hjm, if_neg (by omega)]

end virtio

namespace virtio

/-- C1: `need_event(event_idx, new_idx, old)` returns true if and only if
`(new_idx - event_idx - 1) mod 2^16 < (new_idx - old) mod 2^16` in exact
16-bit modular arithmetic, and at the wraparound point
event_idx = 0xFFFE, old = 0xFFFE, new_idx = 0x0001 it reports the correct
boolean (true, since 2 < 3). -/
theorem need_event_matches (e n o : Nat) (he : e < 65536) (hn : n < 65536)
    (ho : o < 65536) :
    (need_event e n o = true ↔
      (n + 2 * 65536 - e - 1) % 65536 < (n + 65536 - o) % 65536) ∧
    need_event 65534 1 65534 = true := by
  refine ⟨?_, by decide⟩
  simp only [need_event, decide_eq_true_eq]
  omega

/-- Witness for C1: the theorem applied at the wraparound instance
event_idx = 65534, new_idx = 1, old = 65534. -/
theorem need_event_matches_witness :
    (need_event 65534 1 65534 = true ↔
      (1 + 2 * 65536 - 65534 - 1) % 65536 < (1 + 65536 - 65534) % 65536) ∧
    need_event 65534 1 65534 = true :=
  need_event_matches 65534 1 65534 (by decide) (by decide) (by decide)

/-- C10: immediately after construction with queue size `num`, every
available-ring slot `i < num` holds the free-list seed `i + 1` (hence is
nonzero), the slots beyond `num` and the rest of the region keep their
zero fill: `avail_idx`, `avail_flags`, the whole descriptor table and the
whole used ring are zero. -/
theorem vring_init_fresh_state (num : Nat) (hnum : num < 65536) :
    (∀ i, i < num →
      (vring_init num).avail_ring i = i + 1 ∧ (vring_init num).avail_ring i ≠ 0) ∧
    (∀ i, num ≤ i → (vring_init num).avail_ring i = 0) ∧
    (vring_init num).avail_idx = 0 ∧
    (vring_init num).avail_flags = 0 ∧
    (∀ j, (vring_init num)._desc j = ⟨0, 0, 0, 0⟩) ∧
    (vring_init num).used_flags = 0 ∧
    (vring_init num).used_idx = 0 ∧
    (∀ j, (vring_init num).used_ring j = (0, 0)) := by
  have hp := foldl_step_preserves (List.range num) (vring_zero num)
  refine ⟨?_, ?_, ?_, ?_, ?_, ?_, ?_, ?_⟩
  · intro i hi
    have h := foldl_range_ring num (vring_zero num) i
    rw [if_pos hi] at h
    have h2 : (i + 1) % 65536 = i + 1 := Nat.mod_eq_of_lt (by omega)
    simp only [vring_init]
    rw [h, h2]
    omega
  · intro i hi
    have h := foldl_range_ring num (vring_zero num) i
    rw [if_neg (by omega)] at h
    simp only [vring_init]
    rw [h]
    rfl
  · simpa only [vring_init] using hp.2.2.2.1
  · simpa only [vring_init] using hp.2.2.1
  · intro j
    simp only [vring_init]
    rw [hp.2.1]
    rfl
  · simpa only [vring_init] using hp.2.2.2.2.1
  · simpa only [vring_init] using hp.2.2.2.2.2.1
  · intro j
    simp only [vring_init]
    rw [hp.2.2.2.2.2.2]
    rfl

/-- Witness for C10: the theorem applied at queue size 4, read out at
concrete slots. -/
theorem vring_init_fresh_state_witness :
    (vring_init 4).avail_ring 2 = 2 + 1 ∧ (vring_init 4).avail_ring 0 ≠ 0 ∧
    (vring_init 4).avail_idx = 0 ∧ (vring_init 4)._desc 0 = ⟨0, 0, 0, 0⟩ ∧
    (vring_init 4).used_ring 0 = (0, 0) := by
  have h := vring_init_fresh_state 4 (by decide)
  exact ⟨(h.1 2 (by decide)).1, (h.1 0 (by decide)).2, h.2.2.1,
    h.2.2.2.2.1 0, h.2.2.2.2.2.2.2 0⟩

/-- C2, code-bug evidence: submitting a 2-segment chain (out = 1, in = 1)
to a fresh queue of size 4 produces a first descriptor (slot 1) whose
flags are exactly DEVICE_WRITABLE — the out segment is marked writable
and, although it is not the last segment, its chaining flag is clear and
its next pointer links the slot to itself; walking from the first
consumed slot therefore visits 1 descriptor instead of out + in = 2.
The source expression `F_NEXT | (i>in) ? F_WRITE : 0` parses as
`(F_NEXT | (i>in)) ? F_WRITE : 0`, whose condition is always nonzero. -/
theorem add_buf_flags_bug :
    ((add_buf (vring_init 4) [(100, 10), (200, 20)] 1 1).1._desc 1)._flags &&&
        VRING_DESC_F_WRITE ≠ 0 ∧
    ((add_buf (vring_init 4) [(100, 10), (200, 20)] 1 1).1._desc 1)._flags &&&
        VRING_DESC_F_NEXT = 0 ∧
    ((add_buf (vring_init 4) [(100, 10), (200, 20)] 1 1).1._desc 1)._next = 1 ∧
    ((add_buf (vring_init 4) [(100, 10), (200, 20)] 1 1).1._desc 2)._flags =
        VRING_DESC_F_WRITE ∧
    walk_chain (add_buf (vring_init 4) [(100, 10), (200, 20)] 1 1).1 5 1 = [1] := by
  decide

/-- C3, code-bug evidence: `add_buf` returns true for every state and
every segment count — the free-slot capacity check is commented out in
the source, so a queue-full condition is never reported. -/
theorem add_buf_never_fails (s : VringState) (sg : List (Nat × Nat))
    (out_ in_ : Nat) :
    (add_buf s sg out_ in_).2 = true := rfl

/-- C4, code-bug evidence: in the end-to-end scenario (queue size 4, one
2-segment submit, then a simulated device completion writing (1, 37) to
the used ring and setting used idx to 1), `get_buf` still yields nothing:
the source is a stub returning the null pointer, touching neither the
used-index cursor nor any free-list state. -/
theorem get_buf_stub_yields_nothing :
    (get_buf { (add_buf (vring_init 4) [(100, 10), (200, 20)] 1 1).1 with
        used_ring := (Function.update
          (add_buf (vring_init 4) [(100, 10), (200, 20)] 1 1).1.used_ring 0 (1, 37)),
        used_idx := 1 }).1 = none ∧
    (get_buf { (add_buf (vring_init 4) [(100, 10), (200, 20)] 1 1).1 with
        used_ring := (Function.update
          (add_buf (vring_init 4) [(100, 10), (200, 20)] 1 1).1.used_ring 0 (1, 37)),
        used_idx := 1 }).2.avail_idx = 2 := by
  exact ⟨rfl, by decide⟩

/-- C6, code-bug evidence: one successful 2-segment submit on a fresh
queue of size 4 leaves avail idx at 2 — the index is incremented once per
descriptor inside the loop, not once per submit — and no slot of the
available ring is ever written (all four entries still hold their
free-list seeds 1, 2, 3, 4: the head index is never appended). -/
theorem add_buf_idx_bug :
    (add_buf (vring_init 4) [(100, 10), (200, 20)] 1 1).1.avail_idx = 2 ∧
    (add_buf (vring_init 4) [(100, 10), (200, 20)] 1 1).1.avail_ring 0 = 1 ∧
    (add_buf (vring_init 4) [(100, 10), (200, 20)] 1 1).1.avail_ring 1 = 2 ∧
    (add_buf (vring_init 4) [(100, 10), (200, 20)] 1 1).1.avail_ring 2 = 3 ∧
    (add_buf (vring_init 4) [(100, 10), (200, 20)] 1 1).1.avail_ring 3 = 4 := by
  decide

/-- C7, code-bug evidence: a single submit of a 2-segment chain on a
fresh queue of size 4 consumes two free-list entries (avail idx advances
from 0 to 2) yet the chain walkable from the first consumed slot has
length 1, and slot 2 — written with DEVICE_WRITABLE flags — is on no
chain reachable from that head while no free-list accounting exists and
`get_buf` can never return any slot; the conservation invariant has no
state to hold of. -/
theorem add_buf_conservation_bug :
    (add_buf (vring_init 4) [(100, 10), (200, 20)] 1 1).1.avail_idx = 2 ∧
    walk_chain (add_buf (vring_init 4) [(100, 10), (200, 20)] 1 1).1 5 1 = [1] ∧
    ((add_buf (vring_init 4) [(100, 10), (200, 20)] 1 1).1._desc 2)._flags = 2 ∧
    (get_buf (add_buf (vring_init 4) [(100, 10), (200, 20)] 1 1).1).1 = none := by
  decide

/-- C8, code-bug evidence: construction with queue size 0 and with the
non-power-of-two queue size 3 completes normally and produces an
initialised state — the source constructor validates nothing (and never
checks the allocation result), so no construction error is ever
surfaced. -/
theorem vring_init_no_validation :
    (vring_init 0).avail_idx = 0 ∧ (vring_init 0).avail_ring 0 = 0 ∧
    (vring_init 3).avail_ring 0 = 1 ∧ (vring_init 3).avail_ring 2 = 3 := by
  decide

end virtio

namespace virtio

/-- Masking with the 64-bit complement of a low power-of-two mask keeps
exactly the bits at and above position `k`: for `y` below `2 ^ n`,
`y AND (2 ^ n - 2 ^ k)` clears the low `k` bits of `y`. -/
theorem land_high_mask (n k y : Nat) (hk : k ≤ n) (hy : y < 2 ^ n) :
    y &&& (2 ^ n - 2 ^ k) = 2 ^ k * (y / 2 ^ k) := by
  have h2k : (1 : Nat) ≤ 2 ^ k := Nat.one_le_two_pow
  have hkn : (2 : Nat) ^ k ≤ 2 ^ n := Nat.pow_le_pow_right (by norm_num) hk
  have hsub : 2 ^ n - 2 ^ k = 2 ^ n - ((2 ^ k - 1) + 1) := by omega
  have hlt : 2 ^ k - 1 < 2 ^ n := by omega
  have hmul : 2 ^ k * (y / 2 ^ k) = (y >>> k) <<< k := by
    rw [Nat.shiftRight_eq_div_pow, Nat.shiftLeft_eq, Nat.mul_comm]
  apply Nat.eq_of_testBit_eq
  intro i
  rw [Nat.testBit_and, hsub, Nat.testBit_two_pow_sub_succ hlt, hmul,
    Nat.testBit_shiftLeft, Nat.testBit_shiftRight]
  by_cases hik : k ≤ i
  · have hki : k + (i - k) = i := by omega
    rw [hki]
    by_cases hin : i < n
    · simp [hik, hin, Nat.not_lt.2 hik, Bool.and_comm]
    · have hyi : y < 2 ^ i :=
        lt_of_lt_of_le hy (Nat.pow_le_pow_right (by norm_num) (by omega))
      simp [Nat.testBit_lt_two_pow hyi, hik, hin]
  · simp [hik, (by omega : i < k)]

/-- `round_up` at a power-of-two alignment, written as the source's
divide-and-multiply form. -/
theorem round_up_eq_div_mul (x k : Nat) :
    round_up x (2 ^ k) = ((x + 2 ^ k - 1) / 2 ^ k) * 2 ^ k := rfl

/-- For a power-of-two alignment and arguments in the C types' ranges,
the 64-bit mask computation of `get_size` agrees with the spec formula
whenever the final value fits the 32-bit return type. -/
theorem get_size_eq_spec (num align k : Nat) (hk : k ≤ 63) (ha : align = 2 ^ k)
    (hnum : num < 2 ^ 32) (hfit : get_size_spec num align < 2 ^ 32) :
    get_size num align = get_size_spec num align := by
  subst ha
  have h2k : (1 : Nat) ≤ 2 ^ k := Nat.one_le_two_pow
  have hk64 : (2 : Nat) ^ k ≤ 2 ^ 63 := Nat.pow_le_pow_right (by norm_num) hk
  set x := sizeof_vring_desc * num + sizeof_u16 * (3 + num) with hx
  have hxlt : x < 2 ^ 37 := by
    simp only [hx, sizeof_vring_desc, sizeof_u16]
    omega
  have hy : x + 2 ^ k - 1 < 2 ^ 64 := by
    have : (2 : Nat) ^ 37 + 2 ^ 63 < 2 ^ 64 := by norm_num
    omega
  have e1 : (x + 2 ^ k + (2 ^ 64 - 1)) % 2 ^ 64 = x + 2 ^ k - 1 := by
    have : x + 2 ^ k + (2 ^ 64 - 1) = (x + 2 ^ k - 1) + 1 * 2 ^ 64 := by omega
    rw [this, Nat.add_mul_mod_self_right, Nat.mod_eq_of_lt hy]
  have e2 : (2 ^ 64 - 2 ^ k) % 2 ^ 64 = 2 ^ 64 - 2 ^ k := by
    apply Nat.mod_eq_of_lt
    omega
  have e3 := land_high_mask 64 k (x + 2 ^ k - 1) (by omega) hy
  have e4 : 2 ^ k * ((x + 2 ^ k - 1) / 2 ^ k) = round_up x (2 ^ k) := by
    rw [round_up_eq_div_mul, Nat.mul_comm]
  rw [get_size, ← hx, e1, e2, e3, e4]
  have hfin : round_up x (2 ^ k) + sizeof_u16 * 3 + sizeof_vring_used_elem * num
      = get_size_spec num (2 ^ k) := by
    simp only [get_size_spec, used_bytes, desc_bytes, avail_bytes, ← hx]
    omega
  rw [hfin, Nat.mod_eq_of_lt hfit]

/-- Rounding up is monotone in the rounded value. -/
theorem round_up_mono (x1 x2 a : Nat) (h : x1 ≤ x2) :
    round_up x1 a ≤ round_up x2 a :=
  Nat.mul_le_mul_right _ (Nat.div_le_div_right (by omega))

/-- Rounding up never shrinks the value (positive alignment). -/
theorem le_round_up (x a : Nat) (h : 0 < a) : x ≤ round_up x a := by
  have hE := Nat.div_add_mod (x + a - 1) a
  have h2 : (x + a - 1) % a < a := Nat.mod_lt _ h
  rw [round_up, Nat.mul_comm]
  omega

/-- C5 (amended): for power-of-two `align` up to `2 ^ 63`, `num` in the
32-bit argument range and a result that fits the function's 32-bit
return type, `get_size(num, align)` equals
`round_up(desc_bytes + avail_bytes, align) + used_bytes`, with
`desc_bytes` the `num` 16-byte descriptors, `avail_bytes` the
`(3 + num)` u16 fields and `used_bytes` the 3 u16 fields plus `num`
8-byte used elements.  Without the fits-in-32-bits condition the
equality fails (see the counterexample): the C return type `unsigned`
truncates the 64-bit computation. -/
theorem get_size_formula (num align k : Nat) (hk : k ≤ 63) (ha : align = 2 ^ k)
    (hnum : num < 2 ^ 32) (hfit : get_size_spec num align < 2 ^ 32) :
    get_size num align =
      round_up (desc_bytes num + avail_bytes num) align + used_bytes num :=
  get_size_eq_spec num align k hk ha hnum hfit

/-- Counterexample for C5 as stated: at queue size `2 ^ 28` and page
alignment 4096 the untruncated layout size exceeds `2 ^ 32`, so the
32-bit return value of `get_size` differs from the claimed formula. -/
theorem get_size_formula_counterexample :
    ¬ (get_size (2 ^ 28) 4096 =
        round_up (desc_bytes (2 ^ 28) + avail_bytes (2 ^ 28)) 4096 +
          used_bytes (2 ^ 28)) := by
  decide

/-- Witness for C5: the amended theorem applied at `num = 256`,
`align = 4096 = 2 ^ 12`. -/
theorem get_size_formula_witness :
    get_size 256 4096 =
      round_up (desc_bytes 256 + avail_bytes 256) 4096 + used_bytes 256 :=
  get_size_formula 256 4096 12 (by decide) (by decide) (by decide) (by decide)

/-- C9 (amended): for power-of-two queue sizes `num1 ≤ num2` and a
power-of-two alignment, provided the larger layout still fits the 32-bit
return type, `get_size` is monotone in the queue size; moreover the used
ring's offset (the rounded prefix) is a multiple of the alignment and
lies at or after the end of the descriptor table plus available ring, so
the three regions do not overlap.  Without the fits-in-32-bits bound the
monotonicity fails (see the counterexample). -/
theorem get_size_monotone_layout (num1 num2 align k1 k2 k : Nat)
    (h1 : num1 = 2 ^ k1) (h2 : num2 = 2 ^ k2) (h12 : num1 ≤ num2)
    (hk : k ≤ 63) (ha : align = 2 ^ k) (hnum : num2 < 2 ^ 32)
    (hfit : get_size_spec num2 align < 2 ^ 32) :
    get_size num1 align ≤ get_size num2 align ∧
    align ∣ used_offset num1 align ∧
    desc_bytes num1 + avail_bytes num1 ≤ used_offset num1 align := by
  have hmono : get_size_spec num1 align ≤ get_size_spec num2 align := by
    have hr := round_up_mono (desc_bytes num1 + avail_bytes num1)
      (desc_bytes num2 + avail_bytes num2) align
      (by simp only [desc_bytes, avail_bytes, sizeof_vring_desc, sizeof_u16]; omega)
    simp only [get_size_spec, used_bytes, desc_bytes, avail_bytes,
      sizeof_vring_used_elem, sizeof_u16] at *
    omega
  have e1 := get_size_eq_spec num1 align k hk ha (by omega) (by omega)
  have e2 := get_size_eq_spec num2 align k hk ha hnum hfit
  have hpos : 0 < align := by
    rw [ha]; exact Nat.one_le_two_pow
  refine ⟨by rw [e1, e2]; exact hmono, ?_, ?_⟩
  · simp only [used_offset, round_up]
    exact dvd_mul_left _ _
  · simpa only [used_offset] using
      le_round_up (desc_bytes num1 + avail_bytes num1) align hpos

/-- Counterexample for C9 as stated: at page alignment 4096 with the
power-of-two queue sizes `2 ^ 27 ≤ 2 ^ 28`, the 32-bit truncation makes
`get_size` decrease. -/
theorem get_size_monotone_counterexample :
    2 ^ 27 ≤ 2 ^ 28 ∧ ¬ (get_size (2 ^ 27) 4096 ≤ get_size (2 ^ 28) 4096) := by
  decide

/-- Witness for C9: the amended theorem applied at queue sizes 2 and 4
with alignment `4096 = 2 ^ 12`. -/
theorem get_size_monotone_layout_witness :
    get_size 2 4096 ≤ get_size 4 4096 ∧ 4096 ∣ used_offset 2 4096 ∧
    desc_bytes 2 + avail_bytes 2 ≤ used_offset 2 4096 :=
  get_size_monotone_layout 2 4 4096 1 2 12 (by decide) (by decide) (by decide)
    (by decide) (by decide) (by decide) (by decide)

end virtio
